import Mathlib

/-!
Verification of the CRUSH-hierarchy module (`library/ceph_crush.py`).

The module builds a Ceph CRUSH placement hierarchy from a per-node location
mapping: it validates the mapping, then walks a fixed ordered list of bucket
types and, for each type present in the mapping, issues an external
`ceph osd crush add-bucket` command followed (when a previous level exists)
by a `ceph osd crush move` command nesting the previous bucket under the
current one.

The embedding below mirrors the Python source.  The external command runner
`module.run_command` is modelled as an injected function
`Executor : List String → Int × String × String` returning
(exit code, stdout, stderr).  The Ansible result dict is modelled by
`ModuleResult`; the three ways `run_module` can end (a plain `return` in
check mode, `module.exit_json`, `module.fail_json`) plus the Python
`NameError` that would be raised if `create_and_move_buckets` returned with
its locals `rc, cmd, out, err` unbound are modelled by `Outcome`.
Timestamps (`start`, `end`, `delta`) are environment supplied and carry no
algorithmic content, so they are elided from `ModuleResult`.
-/

namespace CephCrush

/-- The fixed ordered list `crush_bucket_types` declared at module top level,
from most specific (`host`) to most general (`root`). -/
def crush_bucket_types : List String :=
  ["host", "chassis", "rack", "row", "pdu", "pod", "room", "datacenter", "region", "root"]

/-- A location mapping: the Python dict `location`, modelled as an
association list from bucket-type keys to bucket names. -/
abbrev Location := List (String × String)

/-- Dictionary lookup `location[k]` (as an `Option`). -/
def Location.find (loc : Location) (k : String) : Option String :=
  List.lookup k loc

/-- The Python membership test `k in location.keys()`. -/
def Location.hasKey (loc : Location) (k : String) : Bool :=
  (Location.find loc k).isSome

/-- The Python `len(location)`. -/
def Location.size (loc : Location) : Nat :=
  loc.length

/-- Abstract command executor modelling `module.run_command(cmd, encoding=None)`:
maps an argument vector to (exit code, stdout, stderr). -/
abbrev Executor := List String → Int × String × String

/-- The Python `generate_cmd(cluster, subcommand, bucket, bucket_type)`:
the fixed 8-token argument vector of every emitted command. -/
def generate_cmd (cluster subcommand bucket bucket_type : String) : List String :=
  ["ceph", "--cluster", cluster, "osd", "crush", subcommand, bucket, bucket_type]

/-- The `(rc, cmd, out, err)` locals of `create_and_move_buckets` right after
`rc, out, err = module.run_command(cmd)` for a given command. -/
def execRecord (exec : Executor) (cmd : List String) : Int × List String × String × String :=
  ((exec cmd).1, cmd, (exec cmd).2.1, (exec cmd).2.2)

/-- The mutable state of one `create_and_move_buckets` call:
`last` holds the `(rc, cmd, out, err)` locals (`none` while still unbound),
`previous_bucket_type` the like-named local, and `trace` the list of
argument vectors passed to `module.run_command` so far, in order. -/
structure BuildState where
  last : Option (Int × List String × String × String)
  previous_bucket_type : Option String
  trace : List (List String)
deriving DecidableEq

/-- One iteration of the `for k, crush_bucket_type in enumerate(crush_bucket_types)`
loop body of `create_and_move_buckets`.  The Python guard
`if previous_bucket_type:` tests truthiness; since the value is always `None`
or a (nonempty) element of `crush_bucket_types`, it is `isSome` here.
The lookups `osd_crush_location[t]` are guarded by the `in keys()` test, so
the `getD ""` default is never the value actually used. -/
def buildStep (exec : Executor) (cluster : String) (loc : Location)
    (s : BuildState) (crush_bucket_type : String) : BuildState :=
  if Location.hasKey loc crush_bucket_type then
    let bucket := (Location.find loc crush_bucket_type).getD ""
    let cmd₁ := generate_cmd cluster "add-bucket" bucket crush_bucket_type
    let s₁ : BuildState :=
      { last := some (execRecord exec cmd₁)
        previous_bucket_type := s.previous_bucket_type
        trace := s.trace ++ [cmd₁] }
    let s₂ : BuildState :=
      match s.previous_bucket_type with
      | some prev =>
          let cmd₂ := generate_cmd cluster "move" ((Location.find loc prev).getD "")
            (crush_bucket_type ++ "=" ++ bucket)
          { last := some (execRecord exec cmd₂)
            previous_bucket_type := s₁.previous_bucket_type
            trace := s₁.trace ++ [cmd₂] }
      | none => s₁
    { s₂ with previous_bucket_type := some crush_bucket_type }
  else s

/-- The Python `create_and_move_buckets(module, cluster, osd_crush_location)`:
fold the loop body over the fixed bucket-type list, starting from
`previous_bucket_type = None` with `rc, cmd, out, err` unbound. -/
def create_and_move_buckets (exec : Executor) (cluster : String) (loc : Location) : BuildState :=
  crush_bucket_types.foldl (buildStep exec cluster loc) ⟨none, none, []⟩

/-- Python `bytes.rstrip(b"\r\n")`: strip trailing CR and LF characters. -/
def rstripCRLF (s : String) : String :=
  String.mk ((s.data.reverse.dropWhile (fun c => c == '\r' || c == '\n')).reverse)

/-- The Ansible result dict.  `rc := none` models the initial placeholder
value `rc=''`; `cmd := none` models the absence of the `cmd` key in the
initial dict. -/
structure ModuleResult where
  changed : Bool
  stdout : String
  stderr : String
  rc : Option Int
  cmd : Option (List String)
deriving DecidableEq

/-- How `run_module` ends: a plain `return result` (check mode),
`module.exit_json(**result)`, `module.fail_json(msg=..., **result)`, or the
Python `NameError` raised at `return rc, cmd, out, err, previous_bucket_type`
when no loop iteration bound those locals. -/
inductive Outcome
  | returned (r : ModuleResult)
  | exitJson (r : ModuleResult)
  | failJson (msg : String) (r : ModuleResult)
  | nameError
deriving DecidableEq

/-- The initial `result = dict(changed=False, stdout='', stderr='', rc='', ...)`. -/
def initResult : ModuleResult :=
  { changed := false, stdout := "", stderr := "", rc := none, cmd := none }

/-- The defensive loop in `run_module` (lines 141-144): scans
`crush_bucket_types` and sets the accumulator to `"Ok"` whenever a type other
than `host` is a key of `location`. -/
def hostCheckLoop (loc : Location) : Option String :=
  crush_bucket_types.foldl
    (fun acc t => if Location.hasKey loc t && t != "host" then some "Ok" else acc) none

/-- The rebuilt `result = dict(cmd=..., rc=rc, stdout=out.rstrip(b"\r\n"),
stderr=err.rstrip(b"\r\n"), changed=True)` of line 158. -/
def buildResult (rc : Int) (cmd : List String) (out err : String) : ModuleResult :=
  { changed := true, stdout := rstripCRLF out, stderr := rstripCRLF err,
    rc := some rc, cmd := some cmd }

/-- The post-build error message of line 170. -/
def noValidMessage : String :=
  "No valid CRUSH bucket type found, valid buckets can be found at http://docs.ceph.com/docs/master/rados/operations/crush-map/#crush-structure"

/-- The tail of `run_module` after `create_and_move_buckets` returns
(lines 158-177): report the last command, flag the `None` bucket type, and
fail on a non-zero final exit code. -/
def reportResult (s : BuildState) : Outcome :=
  match s.last with
  | none => Outcome.nameError
  | some (rc, cmd, out, err) =>
      match s.previous_bucket_type with
      | none =>
          Outcome.exitJson
            { buildResult rc cmd out err with stdout := noValidMessage, rc := some 1 }
      | some _ =>
          if rc ≠ 0 then Outcome.failJson "non-zero return code" (buildResult rc cmd out err)
          else Outcome.exitJson (buildResult rc cmd out err)

/-- The Python `run_module()`: check-mode short circuit, the three validation
checks in order, then the build and the report.  The second component of the
returned pair is the list of external commands actually executed. -/
def run_module (exec : Executor) (checkMode : Bool) (cluster : String) (loc : Location) :
    Outcome × List (List String) :=
  if checkMode then (Outcome.returned initResult, [])
  else if Location.size loc < 2 then
    (Outcome.exitJson
      { initResult with stdout := "You must specify at least 2 buckets.", rc := some 1 }, [])
  else if Location.hasKey loc "host" = false then
    (Outcome.exitJson
      { initResult with stdout := "You must specify a \x27host\x27 bucket.", rc := some 1 }, [])
  else if hostCheckLoop loc = none then
    (Outcome.exitJson
      { initResult with
        stdout := "It seems a \x27host\x27 bucket was specified but the other bucket types are invalid",
        rc := some 1 }, [])
  else
    let s := create_and_move_buckets exec cluster loc
    (reportResult s, s.trace)

/-- The conjunction of the three validation checks of `run_module`, in their
source form: a mapping that passes all of them reaches the build loop. -/
def passesValidation (loc : Location) : Prop :=
  ¬ Location.size loc < 2 ∧ Location.hasKey loc "host" = true ∧ hostCheckLoop loc ≠ none

instance (loc : Location) : Decidable (passesValidation loc) := by
  unfold passesValidation
  infer_instance

/-- The bucket types present in the mapping, in the fixed traversal order. -/
def presentLevels (loc : Location) : List String :=
  crush_bucket_types.filter (fun t => Location.hasKey loc t)

/-- The sequence of commands the build loop emits while scanning the level
list `ts` with previously processed level `prev`: an `add-bucket` for each
present level, preceded-by-nothing for the first when `prev = none`, and a
`move` nesting the previous bucket under the current one otherwise. -/
def emitFrom (cluster : String) (loc : Location) : Option String → List String → List (List String)
  | _, [] => []
  | prev, t :: ts =>
      if Location.hasKey loc t then
        let bucket := (Location.find loc t).getD ""
        generate_cmd cluster "add-bucket" bucket t ::
          ((match prev with
            | some p =>
                [generate_cmd cluster "move" ((Location.find loc p).getD "")
                  (t ++ "=" ++ bucket)]
            | none => []) ++ emitFrom cluster loc (some t) ts)
      else emitFrom cluster loc prev ts

/-- `emitFrom` restricted to a list of levels already known to be present
(the filtered form used to relate the loop to the spec description). -/
def emitPresent (cluster : String) (loc : Location) : Option String → List String → List (List String)
  | _, [] => []
  | prev, t :: ts =>
      let bucket := (Location.find loc t).getD ""
      generate_cmd cluster "add-bucket" bucket t ::
        ((match prev with
          | some p =>
              [generate_cmd cluster "move" ((Location.find loc p).getD "")
                (t ++ "=" ++ bucket)]
          | none => []) ++ emitPresent cluster loc (some t) ts)

/-- The whole command sequence of one `create_and_move_buckets` call. -/
def emittedCmds (cluster : String) (loc : Location) : List (List String) :=
  emitFrom cluster loc none crush_bucket_types

/-- Modelled from the spec: the command pair emitted for a present level `t`
whose predecessor in the filtered order is `p` — one create followed by
exactly one nesting command. -/
def pairCmds (cluster : String) (loc : Location) (p t : String) : List (List String) :=
  [generate_cmd cluster "add-bucket" ((Location.find loc t).getD "") t,
   generate_cmd cluster "move" ((Location.find loc p).getD "")
     (t ++ "=" ++ ((Location.find loc t).getD ""))]

/-- Modelled from the spec: create commands follow the fixed order restricted
to present keys; after the first present level, each consecutive pair
`(p, t)` of present levels contributes exactly one `add-bucket` for `t` and
exactly one `move` nesting `location[p]` under `t=location[t]`. -/
def specSequence (cluster : String) (loc : Location) : List (List String) :=
  match presentLevels loc with
  | [] => []
  | t₀ :: rest =>
      generate_cmd cluster "add-bucket" ((Location.find loc t₀).getD "") t₀ ::
        (List.zip (t₀ :: rest) rest).flatMap (fun pt => pairCmds cluster loc pt.1 pt.2)

/-- Whether an argument vector is a `move` (nesting) command: its sixth token
is the subcommand slot of `generate_cmd`. -/
def isMoveCmd (c : List String) : Bool :=
  c.getD 5 "" == "move"

/-- Whether an argument vector is an `add-bucket` (create) command. -/
def isAddCmd (c : List String) : Bool :=
  c.getD 5 "" == "add-bucket"

/-- The sub-mapping of `loc` whose keys are recognized bucket types. -/
def restrictToLevels (loc : Location) : Location :=
  loc.filter (fun kv => decide (kv.1 ∈ crush_bucket_types))

/-- The expected stdout of a rejected run: the message of the first failing
validation check, in the order the checks are applied. -/
def rejectionMessage (loc : Location) : String :=
  if Location.size loc < 2 then "You must specify at least 2 buckets."
  else if Location.hasKey loc "host" = false then "You must specify a \x27host\x27 bucket."
  else "It seems a \x27host\x27 bucket was specified but the other bucket types are invalid"

/-- A concrete valid mapping (Example 3 of the spec). -/
def locExample : Location := [("host", "node1"), ("rack", "rackA"), ("root", "default")]

/-- A concrete valid mapping with two levels. -/
def locPair : Location := [("host", "node1"), ("rack", "rackA")]

/-- A concrete mapping that fails validation (only one entry). -/
def locOnlyHost : Location := [("host", "node1")]

/-- An executor on which every command succeeds. -/
def execZero : Executor := fun _ => (0, "", "")

/-- An executor on which every command fails. -/
def execAllFail : Executor := fun _ => (1, "", "")

/-- An executor that fails exactly the `add-bucket node1 ...` command and
succeeds on everything else. -/
def execFailFirst : Executor := fun c =>
  if c.getD 5 "" == "add-bucket" && c.getD 6 "" == "node1" then (1, "", "") else (0, "", "")

/-! Helper lemmas about `Option.or` and `List.getLast?`. -/

theorem or_none_eq {α : Type} (x : Option α) : x.or none = x := by
  cases x <;> rfl

theorem or_map_eq {α β : Type} (f : α → β) (x y : Option α) :
    (x.or y).map f = (x.map f).or (y.map f) := by
  cases x <;> rfl

theorem or_some_absorb {α : Type} (x : Option α) (b : α) (y : Option α) :
    (x.or (some b)).or y = x.or (some b) := by
  cases x <;> rfl

theorem getLast?_cons_or {α : Type} : ∀ (l : List α) (a : α),
    (a :: l).getLast? = (l.getLast?).or (some a)
  | [], _ => rfl
  | b :: l, a => by
      rw [List.getLast?_cons_cons, getLast?_cons_or l b]
      cases l.getLast? <;> rfl

theorem foldl_choose_last {α : Type} (q : α → Bool) :
    ∀ (l : List α) (acc : Option α),
      l.foldl (fun a t => if q t then some t else a) acc = ((l.filter q).getLast?).or acc := by
  intro l
  induction l with
  | nil => intro acc; rfl
  | cons t l ih =>
      intro acc
      rw [List.foldl_cons]
      by_cases h : q t
      · rw [if_pos h, ih (some t), List.filter_cons, if_pos h, getLast?_cons_or,
          or_some_absorb]
      · rw [if_neg h, ih acc, List.filter_cons, if_neg h]

/-! Structural lemmas about the build loop. -/

theorem trace_foldl (exec : Executor) (cluster : String) (loc : Location) :
    ∀ (ts : List String) (s : BuildState),
      (ts.foldl (buildStep exec cluster loc) s).trace
        = s.trace ++ emitFrom cluster loc s.previous_bucket_type ts := by
  intro ts
  induction ts with
  | nil => intro s; simp [emitFrom]
  | cons t ts ih =>
      intro s
      rw [List.foldl_cons, ih]
      by_cases h : Location.hasKey loc t
      · cases hp : s.previous_bucket_type with
        | none => simp [buildStep, h, hp, emitFrom, List.append_assoc]
        | some p => simp [buildStep, h, hp, emitFrom, List.append_assoc]
      · simp [buildStep, h, emitFrom]

theorem previous_foldl (exec : Executor) (cluster : String) (loc : Location) :
    ∀ (ts : List String) (s : BuildState),
      (ts.foldl (buildStep exec cluster loc) s).previous_bucket_type
        = ts.foldl (fun acc t => if Location.hasKey loc t then some t else acc)
            s.previous_bucket_type := by
  intro ts
  induction ts with
  | nil => intro s; rfl
  | cons t ts ih =>
      intro s
      rw [List.foldl_cons, List.foldl_cons, ih]
      by_cases h : Location.hasKey loc t
      · cases hp : s.previous_bucket_type with
        | none => simp [buildStep, h, hp]
        | some p => simp [buildStep, h, hp]
      · simp [buildStep, h]

theorem last_foldl (exec : Executor) (cluster : String) (loc : Location) :
    ∀ (ts : List String) (s : BuildState),
      (ts.foldl (buildStep exec cluster loc) s).last
        = ((emitFrom cluster loc s.previous_bucket_type ts).getLast?.map
            (execRecord exec)).or s.last := by
  intro ts
  induction ts with
  | nil => intro s; simp [emitFrom]
  | cons t ts ih =>
      intro s
      rw [List.foldl_cons, ih]
      by_cases h : Location.hasKey loc t
      · cases hp : s.previous_bucket_type with
        | none =>
            simp [buildStep, h, hp, emitFrom, getLast?_cons_or, or_map_eq, or_some_absorb]
        | some p =>
            simp [buildStep, h, hp, emitFrom, getLast?_cons_or, or_map_eq, or_some_absorb]
      · simp [buildStep, h, emitFrom]

theorem create_trace (exec : Executor) (cluster : String) (loc : Location) :
    (create_and_move_buckets exec cluster loc).trace = emittedCmds cluster loc := by
  unfold create_and_move_buckets emittedCmds
  rw [trace_foldl]
  rfl

theorem create_previous (exec : Executor) (cluster : String) (loc : Location) :
    (create_and_move_buckets exec cluster loc).previous_bucket_type
      = (presentLevels loc).getLast? := by
  unfold create_and_move_buckets presentLevels
  rw [previous_foldl]
  show crush_bucket_types.foldl (fun acc t => if Location.hasKey loc t then some t else acc) none
    = _
  rw [foldl_choose_last, or_none_eq]

theorem create_last (exec : Executor) (cluster : String) (loc : Location) :
    (create_and_move_buckets exec cluster loc).last
      = (emittedCmds cluster loc).getLast?.map (execRecord exec) := by
  unfold create_and_move_buckets emittedCmds
  rw [last_foldl]
  show ((emitFrom cluster loc none crush_bucket_types).getLast?.map (execRecord exec)).or none
    = _
  rw [or_none_eq]

/-! Relating the loop's sequence to the spec-side description. -/

theorem emitFrom_eq_emitPresent (cluster : String) (loc : Location) :
    ∀ (ts : List String) (prev : Option String),
      emitFrom cluster loc prev ts
        = emitPresent cluster loc prev (ts.filter (fun t => Location.hasKey loc t)) := by
  intro ts
  induction ts with
  | nil => intro prev; rfl
  | cons t ts ih =>
      intro prev
      rw [List.filter_cons]
      by_cases h : Location.hasKey loc t
      · rw [if_pos h]
        show emitFrom cluster loc prev (t :: ts) = _
        cases prev with
        | none => simp [emitFrom, emitPresent, h, ih]
        | some p => simp [emitFrom, emitPresent, h, ih]
      · rw [if_neg h]
        cases prev with
        | none => simp [emitFrom, h, ih]
        | some p => simp [emitFrom, h, ih]

theorem emitPresent_zip (cluster : String) (loc : Location) :
    ∀ (l : List String) (p : String),
      emitPresent cluster loc (some p) l
        = (List.zip (p :: l) l).flatMap (fun pt => pairCmds cluster loc pt.1 pt.2) := by
  intro l
  induction l with
  | nil => intro p; rfl
  | cons t l ih =>
      intro p
      simp [emitPresent, pairCmds, ih, List.zip_cons_cons]

theorem specSequence_eq_emitPresent (cluster : String) (loc : Location) :
    specSequence cluster loc = emitPresent cluster loc none (presentLevels loc) := by
  unfold specSequence
  cases h : presentLevels loc with
  | nil => rfl
  | cons t rest => simp [emitPresent, emitPresent_zip]

theorem emittedCmds_eq_specSequence (cluster : String) (loc : Location) :
    emittedCmds cluster loc = specSequence cluster loc := by
  rw [emittedCmds, emitFrom_eq_emitPresent, specSequence_eq_emitPresent]
  rfl

/-! Counting the create and nest commands. -/

theorem emitPresent_count_add (cluster : String) (loc : Location) :
    ∀ (l : List String) (prev : Option String),
      (emitPresent cluster loc prev l).countP isAddCmd = l.length := by
  intro l
  induction l with
  | nil => intro prev; cases prev <;> rfl
  | cons t l ih =>
      intro prev
      cases prev with
      | none => simp [emitPresent, List.countP_cons, ih, isAddCmd, generate_cmd]
      | some p =>
          simp [emitPresent, List.countP_cons, ih, isAddCmd, generate_cmd]

theorem emitPresent_count_move (cluster : String) (loc : Location) :
    ∀ (l : List String) (prev : Option String),
      (emitPresent cluster loc prev l).countP isMoveCmd
        = l.length - (if prev.isSome then 0 else 1) := by
  intro l
  induction l with
  | nil => intro prev; cases prev <;> rfl
  | cons t l ih =>
      intro prev
      cases prev with
      | none =>
          simp [emitPresent, List.countP_cons, ih, isMoveCmd, generate_cmd]
      | some p =>
          simp [emitPresent, List.countP_cons, ih, isMoveCmd, generate_cmd]

/-! Characterizing validation. -/

theorem foldl_ok {α : Type} (q : α → Bool) :
    ∀ (l : List α) (acc : Option String),
      l.foldl (fun a t => if q t then some "Ok" else a) acc
        = if l.any q then some "Ok" else acc := by
  intro l
  induction l with
  | nil => intro acc; rfl
  | cons t l ih =>
      intro acc
      rw [List.foldl_cons]
      by_cases h : q t
      · rw [if_pos h, ih (some "Ok")]
        simp [List.any_cons, h]
      · rw [if_neg h, ih acc]
        simp [List.any_cons, h]

theorem hostCheckLoop_ne_none_iff (loc : Location) :
    hostCheckLoop loc ≠ none
      ↔ ∃ t, t ∈ crush_bucket_types ∧ Location.hasKey loc t = true ∧ t ≠ "host" := by
  unfold hostCheckLoop
  rw [foldl_ok]
  constructor
  · intro h
    have ha : crush_bucket_types.any (fun t => Location.hasKey loc t && t != "host") = true := by
      by_contra hc
      rw [Bool.not_eq_true] at hc
      rw [hc] at h
      simp at h
    rcases List.any_eq_true.mp ha with ⟨t, ht, hq⟩
    rw [Bool.and_eq_true] at hq
    exact ⟨t, ht, hq.1, bne_iff_ne.mp hq.2⟩
  · rintro ⟨t, ht, hk, hne⟩
    have ha : crush_bucket_types.any (fun t => Location.hasKey loc t && t != "host") = true :=
      List.any_eq_true.mpr ⟨t, ht, by rw [Bool.and_eq_true]; exact ⟨hk, bne_iff_ne.mpr hne⟩⟩
    rw [ha]
    simp

theorem getLast?_isSome_of_ne_nil {α : Type} : ∀ (l : List α), l ≠ [] →
    (l.getLast?).isSome = true
  | [], h => absurd rfl h
  | a :: l, _ => by
      rw [getLast?_cons_or]
      cases l.getLast? <;> rfl

theorem presentLevels_ne_nil (loc : Location) (h : Location.hasKey loc "host" = true) :
    presentLevels loc ≠ [] := by
  have hmem : "host" ∈ presentLevels loc := List.mem_filter.mpr ⟨by decide, h⟩
  exact List.ne_nil_of_mem hmem

theorem emittedCmds_ne_nil (cluster : String) (loc : Location)
    (h : Location.hasKey loc "host" = true) : emittedCmds cluster loc ≠ [] := by
  rw [emittedCmds_eq_specSequence, specSequence_eq_emitPresent]
  cases hp : presentLevels loc with
  | nil => exact absurd hp (presentLevels_ne_nil loc h)
  | cons t rest => simp [emitPresent]

theorem presentLevels_two_le (loc : Location) (hv : passesValidation loc) :
    2 ≤ (presentLevels loc).length := by
  obtain ⟨-, hhost, hother⟩ := hv
  rcases (hostCheckLoop_ne_none_iff loc).mp hother with ⟨t, ht, hk, hne⟩
  have h1 : "host" ∈ presentLevels loc := List.mem_filter.mpr ⟨by decide, hhost⟩
  have h2 : t ∈ presentLevels loc := List.mem_filter.mpr ⟨ht, hk⟩
  have h3 : t ∈ (presentLevels loc).erase "host" := (List.mem_erase_of_ne hne).mpr h2
  have h4 : 0 < ((presentLevels loc).erase "host").length :=
    List.length_pos.mpr (List.ne_nil_of_mem h3)
  have h5 : ((presentLevels loc).erase "host").length = (presentLevels loc).length - 1 :=
    List.length_erase_of_mem h1
  omega

/-! The healthy path through `run_module` for a mapping that passes validation. -/

theorem run_module_valid (exec : Executor) (cluster : String) (loc : Location)
    (hv : passesValidation loc) :
    ∃ c, (emittedCmds cluster loc).getLast? = some c ∧
      run_module exec false cluster loc
        = ((if (exec c).1 ≠ 0
            then Outcome.failJson "non-zero return code"
              (buildResult (exec c).1 c (exec c).2.1 (exec c).2.2)
            else Outcome.exitJson (buildResult (exec c).1 c (exec c).2.1 (exec c).2.2)),
           emittedCmds cluster loc) := by
  obtain ⟨hsize, hhost, hother⟩ := hv
  have hne : emittedCmds cluster loc ≠ [] := emittedCmds_ne_nil cluster loc hhost
  obtain ⟨c, hc⟩ := Option.isSome_iff_exists.mp (getLast?_isSome_of_ne_nil _ hne)
  refine ⟨c, hc, ?_⟩
  have hlast : (create_and_move_buckets exec cluster loc).last = some (execRecord exec c) := by
    rw [create_last, hc]
    rfl
  obtain ⟨u, hu⟩ := Option.isSome_iff_exists.mp
    (getLast?_isSome_of_ne_nil _ (presentLevels_ne_nil loc hhost))
  have hprev : (create_and_move_buckets exec cluster loc).previous_bucket_type = some u := by
    rw [create_previous, hu]
  simp only [run_module]
  rw [if_neg (by simp), if_neg hsize, if_neg (by rw [hhost]; simp), if_neg hother]
  refine Prod.ext ?_ (create_trace exec cluster loc)
  show reportResult (create_and_move_buckets exec cluster loc) = _
  rw [reportResult, hlast, hprev]
  rfl

/-! Restriction of a mapping to the recognized bucket types (for the claim
that unrecognized keys never influence the emitted commands). -/

theorem lookup_filter {β : Type} (p : String → Bool) :
    ∀ (l : List (String × β)) (k : String), p k = true →
      List.lookup k (l.filter (fun kv => p kv.1)) = List.lookup k l := by
  intro l
  induction l with
  | nil => intro k hk; rfl
  | cons kv l ih =>
      intro k hk
      obtain ⟨a, b⟩ := kv
      rw [List.filter_cons]
      by_cases h : p a
      · rw [if_pos (by simpa using h)]
        cases hke : k == a <;> simp [List.lookup, hke, ih k hk]
      · have hke : (k == a) = false := by
          cases hke : k == a
          · rfl
          · exact absurd (beq_iff_eq.mp hke ▸ hk) (by simpa using h)
        rw [if_neg (by simpa using h)]
        simp [List.lookup, hke, ih k hk]

theorem find_restrict (loc : Location) (t : String) (ht : t ∈ crush_bucket_types) :
    Location.find (restrictToLevels loc) t = Location.find loc t := by
  unfold restrictToLevels Location.find
  exact lookup_filter (fun k => decide (k ∈ crush_bucket_types)) loc t (decide_eq_true ht)

theorem emitFrom_congr (cluster : String) (loc₁ loc₂ : Location)
    (hfind : ∀ t, t ∈ crush_bucket_types → Location.find loc₁ t = Location.find loc₂ t) :
    ∀ (ts : List String) (prev : Option String),
      (∀ t, t ∈ ts → t ∈ crush_bucket_types) →
      (∀ p, prev = some p → p ∈ crush_bucket_types) →
      emitFrom cluster loc₁ prev ts = emitFrom cluster loc₂ prev ts := by
  intro ts
  induction ts with
  | nil => intro prev _ _; rfl
  | cons t ts ih =>
      intro prev hts hprev
      have ht : t ∈ crush_bucket_types := hts t (List.mem_cons_self t ts)
      have hfd : Location.find loc₁ t = Location.find loc₂ t := hfind t ht
      have hkey : Location.hasKey loc₁ t = Location.hasKey loc₂ t := by
        unfold Location.hasKey
        rw [hfd]
      have hts' : ∀ x, x ∈ ts → x ∈ crush_bucket_types :=
        fun x hx => hts x (List.mem_cons_of_mem t hx)
      have hrec := ih (some t) hts' (fun p hp => (Option.some_inj.mp hp) ▸ ht)
      by_cases h : Location.hasKey loc₁ t
      · cases prev with
        | none =>
            simp [emitFrom, h, hkey ▸ h, hfd, hrec]
        | some p =>
            have hfp : Location.find loc₁ p = Location.find loc₂ p :=
              hfind p (hprev p rfl)
            simp [emitFrom, h, hkey ▸ h, hfd, hfp, hrec]
      · have h₁ : Location.hasKey loc₁ t = false := by
          cases hb : Location.hasKey loc₁ t
          · rfl
          · exact absurd hb h
        have h₂ : Location.hasKey loc₂ t = false := hkey ▸ h₁
        simp [emitFrom, h₁, h₂, ih prev hts' hprev]

/-! Membership of create and nest commands in the emitted sequence. -/

theorem add_mem_emitPresent (cluster : String) (loc : Location) :
    ∀ (l : List String) (prev : Option String) (t : String), t ∈ l →
      generate_cmd cluster "add-bucket" ((Location.find loc t).getD "") t
        ∈ emitPresent cluster loc prev l := by
  intro l
  induction l with
  | nil => intro prev t ht; exact absurd ht (List.not_mem_nil t)
  | cons a l ih =>
      intro prev t ht
      rcases List.mem_cons.mp ht with h | h
      · subst h
        cases prev <;> simp [emitPresent]
      · have hmem := ih (some a) t h
        cases prev with
        | none =>
            simp only [emitPresent, List.nil_append]
            exact List.mem_cons_of_mem _ hmem
        | some p =>
            simp only [emitPresent, List.singleton_append]
            exact List.mem_cons_of_mem _ (List.mem_cons_of_mem _ hmem)

theorem move_mem_emitPresent (cluster : String) (loc : Location) :
    ∀ (l : List String) (prev : Option String) (c : List String),
      (∀ t, t ∈ l → Location.hasKey loc t = true) →
      c ∈ emitPresent cluster loc prev l → isMoveCmd c = true →
      ∃ t name, t ∈ l ∧ Location.find loc t = some name ∧
        c.getLast? = some (t ++ "=" ++ name) := by
  intro l
  induction l with
  | nil => intro prev c _ hc _; exact absurd hc (List.not_mem_nil c)
  | cons a l ih =>
      intro prev c hkeys hc hmove
      have hka : Location.hasKey loc a = true := hkeys a (List.mem_cons_self a l)
      obtain ⟨name, hname⟩ := Option.isSome_iff_exists.mp hka
      have hkeys' : ∀ t, t ∈ l → Location.hasKey loc t = true :=
        fun t ht => hkeys t (List.mem_cons_of_mem a ht)
      cases prev with
      | none =>
          rw [show emitPresent cluster loc none (a :: l)
              = generate_cmd cluster "add-bucket" ((Location.find loc a).getD "") a ::
                  emitPresent cluster loc (some a) l from by simp [emitPresent]] at hc
          rcases List.mem_cons.mp hc with h | h
          · subst h
            exact absurd hmove (by simp [isMoveCmd, generate_cmd])
          · obtain ⟨t, nm, ht, hf, hl⟩ := ih (some a) c hkeys' h hmove
            exact ⟨t, nm, List.mem_cons_of_mem a ht, hf, hl⟩
      | some p =>
          rw [show emitPresent cluster loc (some p) (a :: l)
              = generate_cmd cluster "add-bucket" ((Location.find loc a).getD "") a ::
                  generate_cmd cluster "move" ((Location.find loc p).getD "")
                    (a ++ "=" ++ ((Location.find loc a).getD "")) ::
                  emitPresent cluster loc (some a) l from by simp [emitPresent]] at hc
          rcases List.mem_cons.mp hc with h | h
          · subst h
            exact absurd hmove (by simp [isMoveCmd, generate_cmd])
          rcases List.mem_cons.mp h with h | h
          · subst h
            refine ⟨a, name, List.mem_cons_self a l, hname, ?_⟩
            rw [hname]
            rfl
          · obtain ⟨t, nm, ht, hf, hl⟩ := ih (some a) c hkeys' h hmove
            exact ⟨t, nm, List.mem_cons_of_mem a ht, hf, hl⟩

theorem length_filter_split {α : Type} (p : α → Bool) :
    ∀ l : List α, l.length = (l.filter p).length + (l.filter (fun a => !(p a))).length := by
  intro l
  induction l with
  | nil => rfl
  | cons a l ih =>
      by_cases h : p a <;> simp [List.filter_cons, h, ih] <;> omega

/-! The claims. -/

/-- C1: for every location mapping that passes validation,
`create_and_move_buckets` iterates the ten topology levels in the fixed
order restricted to present keys; each present level gets one `add-bucket`
command, and each present level after the first additionally gets one
`move` command nesting the previous bucket under the current one — so the
trace equals the spec-side `specSequence` (create in filtered order, exactly
one move per consecutive pair of present levels), the number of create
commands is the number of present levels, and the number of move commands
is one less. -/
theorem commands_follow_fixed_order_with_single_nesting
    (exec : Executor) (cluster : String) (loc : Location) (hv : passesValidation loc) :
    (create_and_move_buckets exec cluster loc).trace = specSequence cluster loc ∧
    (create_and_move_buckets exec cluster loc).trace.countP isAddCmd
        = (presentLevels loc).length ∧
    (create_and_move_buckets exec cluster loc).trace.countP isMoveCmd
        = (presentLevels loc).length - 1 := by
  have h1 : (create_and_move_buckets exec cluster loc).trace = specSequence cluster loc := by
    rw [create_trace, emittedCmds_eq_specSequence]
  refine ⟨h1, ?_, ?_⟩
  · rw [h1, specSequence_eq_emitPresent, emitPresent_count_add]
  · rw [h1, specSequence_eq_emitPresent, emitPresent_count_move]
    simp

/-- Witness for C1 at Example 3 of the spec. -/
theorem commands_follow_fixed_order_with_single_nesting_witness :
    passesValidation locExample ∧
    ((create_and_move_buckets execZero "ceph" locExample).trace
        = specSequence "ceph" locExample ∧
      (create_and_move_buckets execZero "ceph" locExample).trace.countP isAddCmd
        = (presentLevels locExample).length ∧
      (create_and_move_buckets execZero "ceph" locExample).trace.countP isMoveCmd
        = (presentLevels locExample).length - 1) :=
  ⟨by decide,
    commands_follow_fixed_order_with_single_nesting execZero "ceph" locExample (by decide)⟩

/-- C2: for every mapping that fails validation, the run ends with
`exit_json`, `rc = 1`, the message of the first failing check (in the order
size, host, other-valid-type) in stdout, and zero executed commands. -/
theorem validation_rejects_with_rc_one_and_no_commands
    (exec : Executor) (cluster : String) (loc : Location) (hv : ¬ passesValidation loc) :
    run_module exec false cluster loc
      = (Outcome.exitJson { initResult with stdout := rejectionMessage loc, rc := some 1 },
         []) := by
  simp only [run_module, rejectionMessage]
  rw [if_neg (by simp)]
  by_cases h1 : Location.size loc < 2
  · rw [if_pos h1, if_pos h1]
  · rw [if_neg h1, if_neg h1]
    by_cases h2 : Location.hasKey loc "host" = false
    · rw [if_pos h2, if_pos h2]
    · rw [if_neg h2, if_neg h2]
      by_cases h3 : hostCheckLoop loc = none
      · rw [if_pos h3]
      · exfalso
        have hk : Location.hasKey loc "host" = true := by
          cases hb : Location.hasKey loc "host"
          · exact absurd hb h2
          · rfl
        exact hv ⟨h1, hk, h3⟩

/-- Witness for C2 at the single-entry mapping. -/
theorem validation_rejects_with_rc_one_and_no_commands_witness :
    ¬ passesValidation locOnlyHost ∧
    run_module execZero false "ceph" locOnlyHost
      = (Outcome.exitJson
          { initResult with stdout := rejectionMessage locOnlyHost, rc := some 1 }, []) :=
  ⟨by decide,
    validation_rejects_with_rc_one_and_no_commands execZero "ceph" locOnlyHost (by decide)⟩

/-- C3: for every mapping that passes validation and every executor —
including ones returning non-zero exit codes — the build loop emits the
create command of every present level, its final previously-processed level
is the last present level, and only the last executed command's
(rc, cmd, out, err) is retained in the returned record. -/
theorem build_loop_continues_and_keeps_only_last
    (exec : Executor) (cluster : String) (loc : Location) (hv : passesValidation loc) :
    (∀ t, t ∈ presentLevels loc →
        generate_cmd cluster "add-bucket" ((Location.find loc t).getD "") t
          ∈ (create_and_move_buckets exec cluster loc).trace) ∧
    (create_and_move_buckets exec cluster loc).previous_bucket_type
        = (presentLevels loc).getLast? ∧
    (create_and_move_buckets exec cluster loc).last
        = ((create_and_move_buckets exec cluster loc).trace.getLast?).map (execRecord exec) := by
  refine ⟨?_, create_previous exec cluster loc, ?_⟩
  · intro t ht
    rw [create_trace, emittedCmds_eq_specSequence, specSequence_eq_emitPresent]
    exact add_mem_emitPresent cluster loc (presentLevels loc) none t ht
  · rw [create_last, create_trace]

/-- Witness for C3 with an executor that fails every command. -/
theorem build_loop_continues_and_keeps_only_last_witness :
    passesValidation locExample ∧
    "rack" ∈ presentLevels locExample ∧
    generate_cmd "ceph" "add-bucket" "rackA" "rack"
      ∈ (create_and_move_buckets execAllFail "ceph" locExample).trace ∧
    (create_and_move_buckets execAllFail "ceph" locExample).previous_bucket_type
      = (presentLevels locExample).getLast? :=
  ⟨by decide, by decide,
    (build_loop_continues_and_keeps_only_last execAllFail "ceph" locExample (by decide)).1
      "rack" (by decide),
    (build_loop_continues_and_keeps_only_last execAllFail "ceph" locExample (by decide)).2.1⟩

/-- C5: `generate_cmd` returns exactly the 8-token vector
`[ceph, --cluster, cluster, osd, crush, subcommand, bucket, bucket_type]`
with each token a distinct list element, and every `move` command in a build
trace carries a final token of the form `parentType=parentBucketName` for a
present level. -/
theorem generate_cmd_shape_and_move_parent_token
    (cluster subcommand bucket bucket_type : String) :
    generate_cmd cluster subcommand bucket bucket_type
        = ["ceph", "--cluster", cluster, "osd", "crush", subcommand, bucket, bucket_type] ∧
    (generate_cmd cluster subcommand bucket bucket_type).length = 8 ∧
    ∀ (exec : Executor) (loc : Location) (c : List String),
      c ∈ (create_and_move_buckets exec cluster loc).trace → isMoveCmd c = true →
      ∃ t name, t ∈ crush_bucket_types ∧ Location.find loc t = some name ∧
        c.getLast? = some (t ++ "=" ++ name) := by
  refine ⟨rfl, rfl, ?_⟩
  intro exec loc c hc hmove
  rw [create_trace, emittedCmds_eq_specSequence, specSequence_eq_emitPresent] at hc
  obtain ⟨t, name, ht, hf, hl⟩ := move_mem_emitPresent cluster loc (presentLevels loc) none c
    (fun t ht => (List.mem_filter.mp ht).2) hc hmove
  exact ⟨t, name, (List.mem_filter.mp ht).1, hf, hl⟩

/-- Witness for C5 at a concrete move command of a concrete trace. -/
theorem generate_cmd_shape_and_move_parent_token_witness :
    (generate_cmd "ceph" "move" "node1" "rack=rackA"
        = ["ceph", "--cluster", "ceph", "osd", "crush", "move", "node1", "rack=rackA"]) ∧
    ∃ t name, t ∈ crush_bucket_types ∧ Location.find locPair t = some name ∧
      (generate_cmd "ceph" "move" "node1" "rack=rackA").getLast? = some (t ++ "=" ++ name) :=
  ⟨(generate_cmd_shape_and_move_parent_token "ceph" "move" "node1" "rack=rackA").1,
    (generate_cmd_shape_and_move_parent_token "ceph" "move" "node1" "rack=rackA").2.2
      execZero locPair (generate_cmd "ceph" "move" "node1" "rack=rackA")
      (by decide) (by decide)⟩

/-- C6: the emitted command sequence is a deterministic function of the
cluster name and the location mapping: it does not depend on the executor
(hence two runs with the same inputs emit identical sequences). -/
theorem command_generation_deterministic
    (exec₁ exec₂ : Executor) (cluster : String) (loc : Location) :
    (create_and_move_buckets exec₁ cluster loc).trace
      = (create_and_move_buckets exec₂ cluster loc).trace := by
  rw [create_trace, create_trace]

/-- C7: in check mode `run_module` returns the initial result with
`changed = false` via a plain return, executes zero commands, and never
reaches a validation-failure exit. -/
theorem check_mode_returns_unchanged_without_commands
    (exec : Executor) (cluster : String) (loc : Location) :
    run_module exec true cluster loc = (Outcome.returned initResult, [])
      ∧ initResult.changed = false :=
  ⟨rfl, rfl⟩

/-- C4 counterexample: on `locPair` with an executor failing exactly the
first command (`add-bucket node1 host`), a command in the run returned
exit code 1, yet the run's final result carries `rc = 0` and is surfaced
through `exit_json` as a success — the mid-sequence failure is swallowed. -/
theorem masked_failure_counterexample :
    (generate_cmd "ceph" "add-bucket" "node1" "host")
        ∈ (run_module execFailFirst false "ceph" locPair).2 ∧
    (execFailFirst (generate_cmd "ceph" "add-bucket" "node1" "host")).1 = 1 ∧
    (run_module execFailFirst false "ceph" locPair).1
      = Outcome.exitJson
          { changed := true, stdout := "", stderr := "", rc := some 0,
            cmd := some (generate_cmd "ceph" "move" "node1" "rack=rackA") } := by
  decide

/-- C4 amended: for every validated run, the final result's `rc` is the exit
code of the *last* executed command, and the run is surfaced as a failure
exactly when that last exit code is non-zero; earlier non-zero exit codes
are not surfaced. -/
theorem final_rc_reflects_last_command
    (exec : Executor) (cluster : String) (loc : Location) (hv : passesValidation loc) :
    ∃ c, (run_module exec false cluster loc).2.getLast? = some c ∧
      ((exec c).1 ≠ 0 →
        (run_module exec false cluster loc).1
          = Outcome.failJson "non-zero return code"
              (buildResult (exec c).1 c (exec c).2.1 (exec c).2.2)) ∧
      ((exec c).1 = 0 →
        (run_module exec false cluster loc).1
          = Outcome.exitJson (buildResult (exec c).1 c (exec c).2.1 (exec c).2.2)) := by
  obtain ⟨c, hc, heq⟩ := run_module_valid exec cluster loc hv
  refine ⟨c, ?_, ?_, ?_⟩
  · rw [heq]
    exact hc
  · intro h
    rw [heq]
    simp only [if_pos h]
  · intro h
    rw [heq]
    simp [h]

/-- Witness for the amended C4 on a run whose first command fails but whose
last command succeeds. -/
theorem final_rc_reflects_last_command_witness :
    passesValidation locPair ∧
    ∃ c, (run_module execFailFirst false "ceph" locPair).2.getLast? = some c ∧
      ((execFailFirst c).1 ≠ 0 →
        (run_module execFailFirst false "ceph" locPair).1
          = Outcome.failJson "non-zero return code"
              (buildResult (execFailFirst c).1 c (execFailFirst c).2.1 (execFailFirst c).2.2)) ∧
      ((execFailFirst c).1 = 0 →
        (run_module execFailFirst false "ceph" locPair).1
          = Outcome.exitJson
              (buildResult (execFailFirst c).1 c (execFailFirst c).2.1 (execFailFirst c).2.2)) :=
  ⟨by decide, final_rc_reflects_last_command execFailFirst "ceph" locPair (by decide)⟩

/-- C8: every mapping passing all three validation checks makes the build
loop run for at least two present levels, so the returned tuple's
components are all bound (`last` is `some`), the returned
`previous_bucket_type` is never `None`, and `run_module` takes the healthy
reporting branch — neither the modelled `NameError` nor the post-build
`No valid CRUSH bucket type found` exit is reachable. -/
theorem valid_mapping_reaches_healthy_path
    (exec : Executor) (cluster : String) (loc : Location) (hv : passesValidation loc) :
    2 ≤ (presentLevels loc).length ∧
    (create_and_move_buckets exec cluster loc).last.isSome = true ∧
    (create_and_move_buckets exec cluster loc).previous_bucket_type.isSome = true ∧
    (run_module exec false cluster loc).1 ≠ Outcome.nameError ∧
    ∃ c, (emittedCmds cluster loc).getLast? = some c ∧
      (run_module exec false cluster loc).1
        = (if (exec c).1 ≠ 0
           then Outcome.failJson "non-zero return code"
             (buildResult (exec c).1 c (exec c).2.1 (exec c).2.2)
           else Outcome.exitJson (buildResult (exec c).1 c (exec c).2.1 (exec c).2.2)) := by
  obtain ⟨c, hc, heq⟩ := run_module_valid exec cluster loc hv
  have hhost : Location.hasKey loc "host" = true := hv.2.1
  refine ⟨presentLevels_two_le loc hv, ?_, ?_, ?_, c, hc, by rw [heq]⟩
  · rw [create_last, hc]
    rfl
  · rw [create_previous]
    exact getLast?_isSome_of_ne_nil _ (presentLevels_ne_nil loc hhost)
  · rw [heq]
    by_cases h : (exec c).1 ≠ 0
    · simp only [if_pos h]
      exact fun hcon => Outcome.noConfusion hcon
    · simp only [if_neg h]
      exact fun hcon => Outcome.noConfusion hcon

/-- Witness for C8 at Example 3 of the spec. -/
theorem valid_mapping_reaches_healthy_path_witness :
    passesValidation locExample ∧
    (2 ≤ (presentLevels locExample).length ∧
      (create_and_move_buckets execZero "ceph" locExample).last.isSome = true ∧
      (create_and_move_buckets execZero "ceph" locExample).previous_bucket_type.isSome = true ∧
      (run_module execZero false "ceph" locExample).1 ≠ Outcome.nameError ∧
      ∃ c, (emittedCmds "ceph" locExample).getLast? = some c ∧
        (run_module execZero false "ceph" locExample).1
          = (if (execZero c).1 ≠ 0
             then Outcome.failJson "non-zero return code"
               (buildResult (execZero c).1 c (execZero c).2.1 (execZero c).2.2)
             else Outcome.exitJson
               (buildResult (execZero c).1 c (execZero c).2.1 (execZero c).2.2))) :=
  ⟨by decide, valid_mapping_reaches_healthy_path execZero "ceph" locExample (by decide)⟩

/-- C9: keys outside the ten-level enumeration never cause a command — the
trace on any mapping equals the trace on its restriction to recognized
levels — while every entry, recognized or not, counts toward the
`len(location)` used by the size validation check. -/
theorem unrecognized_keys_ignored
    (exec : Executor) (cluster : String) (loc : Location) :
    (create_and_move_buckets exec cluster loc).trace
        = (create_and_move_buckets exec cluster (restrictToLevels loc)).trace ∧
    Location.size loc
        = Location.size (restrictToLevels loc)
            + (loc.filter (fun kv => !(decide (kv.1 ∈ crush_bucket_types)))).length := by
  constructor
  · rw [create_trace, create_trace]
    show emitFrom cluster loc none crush_bucket_types
      = emitFrom cluster (restrictToLevels loc) none crush_bucket_types
    exact emitFrom_congr cluster loc (restrictToLevels loc)
      (fun t ht => (find_restrict loc t ht).symm) crush_bucket_types none
      (fun t ht => ht) (fun p hp => Option.noConfusion hp)
  · exact length_filter_split (fun kv => decide (kv.1 ∈ crush_bucket_types)) loc

/-- C10: for every mapping passing validation in non-check mode, the final
result record has `changed = True` regardless of the exit codes of the
executed commands. -/
theorem valid_run_always_reports_changed
    (exec : Executor) (cluster : String) (loc : Location) (hv : passesValidation loc) :
    ∃ r, ((run_module exec false cluster loc).1 = Outcome.failJson "non-zero return code" r
        ∨ (run_module exec false cluster loc).1 = Outcome.exitJson r)
      ∧ r.changed = true := by
  obtain ⟨c, hc, heq⟩ := run_module_valid exec cluster loc hv
  refine ⟨buildResult (exec c).1 c (exec c).2.1 (exec c).2.2, ?_, rfl⟩
  rw [heq]
  by_cases h : (exec c).1 ≠ 0
  · left
    simp only [if_pos h]
  · right
    simp only [if_neg h]

/-- Witness for C10 on a run in which every external command fails. -/
theorem valid_run_always_reports_changed_witness :
    passesValidation locExample ∧
    ∃ r, ((run_module execAllFail false "ceph" locExample).1
          = Outcome.failJson "non-zero return code" r
        ∨ (run_module execAllFail false "ceph" locExample).1 = Outcome.exitJson r)
      ∧ r.changed = true :=
  ⟨by decide, valid_run_always_reports_changed execAllFail "ceph" locExample (by decide)⟩

end CephCrush
